import Mathlib

/-!
# Verification of the Content Tracker sequence engine (`src/db_manager.py`)

Shallow embedding of the continuation-day tracking core: the SQLite-backed
functions `log_idea`, `get_current_day` and `check_for_duplication` of
`db_manager.py`, modelled as pure functions over an explicit store.

Modelling conventions:
* The `ideas_log` table is a list of `Entry` records; SQLite's rowid
  assignment is an explicit `nextId` counter.
* Calendar dates (`generation_date`, the `today` read from the wall clock)
  are `Nat`; timestamps (`created_at`) are `Nat` and opaque.
* `sqlite3.connect` failing (the storage layer being unavailable) is a
  boolean `fail` flag on the store: when set, every statement raises
  `sqlite3.Error`.  `log_idea` catches it and returns `False`
  (`db_manager.py:166-171`); the two read operations re-raise it.
* Python's `str.strip()` is `pyStrip` (whitespace at both ends removed);
  SQLite's ASCII-only `LOWER` is `sqliteLower`.  `not s or not s.strip()`
  is equivalent to `pyStrip s = ""`.
* Python exceptions are the error side of `Except PyError`: `valueError`
  for the `ValueError` validations (the spec's `InvalidArgument`),
  `sqliteError` for `sqlite3.Error` (the spec's `StorageUnavailable`).
* The `CHECK` constraints of the schema (`db_manager.py:56-57`) fire on
  `INSERT`; the surrounding `with sqlite3.connect(...)` block rolls the
  transaction back, so a failed insert leaves the store unchanged and
  `log_idea` returns `False`.
-/

namespace ContentTracker

/-- Characters removed by Python's `str.strip()` (ASCII whitespace). -/
def isPySpace (c : Char) : Bool :=
  c = ' ' || c = '\t' || c = '\n' || c = '\r' || c = '\x0b' || c = '\x0c'

/-- Model of Python's `str.strip()`: drop whitespace at both ends. -/
def pyStrip (s : String) : String :=
  ⟨((s.data.dropWhile isPySpace).reverse.dropWhile isPySpace).reverse⟩

/-- ASCII lower-casing of one character, as SQLite's `LOWER` does it. -/
def asciiLower (c : Char) : Char :=
  if 'A' ≤ c ∧ c ≤ 'Z' then Char.ofNat (c.toNat + 32) else c

/-- Model of SQLite's `LOWER()`: ASCII-only lower-casing. -/
def sqliteLower (s : String) : String :=
  ⟨s.data.map asciiLower⟩

/-- The closed category set of the schema `CHECK (niche IN ('MMO', 'AI/Tech', 'Faceless'))`. -/
def allowedNiches : List String := ["MMO", "AI/Tech", "Faceless"]

/-- One row of the `ideas_log` table (`db_manager.py:48-59`). -/
structure Entry where
  id : Nat
  title : String
  niche : String
  continuation_day : Int
  created_at : Nat
  generation_date : Nat
deriving Repr, DecidableEq

/-- The persistent store: the table rows in insertion (rowid) order, the next
rowid, and whether the storage layer is unavailable (connection raises). -/
structure DB where
  entries : List Entry
  nextId : Nat
  fail : Bool
deriving Repr, DecidableEq

/-- Python exceptions crossing the interface of `db_manager.py`:
`ValueError` (validation) and `sqlite3.Error` (storage). -/
inductive PyError where
  | valueError (msg : String)
  | sqliteError
deriving Repr, DecidableEq

/-- `SELECT MAX(continuation_day) ...` followed by `result[0] if result[0] is
not None else 0` (`db_manager.py:203-212`): the maximum of a list of days,
`0` when the list is empty (SQL `MAX` of no rows is `NULL`). -/
def maxOr0 : List Int → Int
  | [] => 0
  | d :: ds => ds.foldl max d

/-- Rows of a niche dated `today` (`WHERE niche = ? AND generation_date = ?`,
used both by the read in `get_current_day` and by the select/delete pair of
`log_idea`). -/
def todayRows (n : String) (today : Nat) (entries : List Entry) : List Entry :=
  entries.filter fun e => e.niche == n && e.generation_date == today

/-- The days of a niche's rows not dated `today`
(`WHERE niche = ? AND generation_date != ?`, `db_manager.py:203-207`). -/
def histDays (n : String) (today : Nat) (entries : List Entry) : List Int :=
  (entries.filter fun e =>
    e.niche == n && e.generation_date != today).map (·.continuation_day)

/-- `log_idea` (`db_manager.py:100-171`): validate, then delete every row of
this niche dated today and insert the new row; storage errors (the connection
failing, or the schema `CHECK` rejecting the inserted niche) roll the
transaction back and become a returned `false`.  `now` is the
`datetime.now()` timestamp, `today` its calendar date. -/
def log_idea (title niche : String) (continuation_day : Int) (now today : Nat)
    (db : DB) : Except PyError (Bool × DB) :=
  if pyStrip title = "" then .error (.valueError "Title cannot be empty")
  else if pyStrip niche = "" then .error (.valueError "Niche cannot be empty")
  else if continuation_day < 1 then
    .error (.valueError "Continuation day must be a positive integer")
  else if db.fail then .ok (false, db)
  else if pyStrip niche ∈ allowedNiches then
    .ok (true,
      { entries := (db.entries.filter fun e =>
          !(e.niche == pyStrip niche && e.generation_date == today)) ++
          [{ id := db.nextId, title := pyStrip title, niche := pyStrip niche
             continuation_day := continuation_day, created_at := now
             generation_date := today }]
        nextId := db.nextId + 1
        fail := false })
  else
    .ok (false, db)

/-- `get_current_day` (`db_manager.py:174-239`): the maximum day of the niche
over rows not dated today (0 when none), unless a row of the niche is dated
today, in which case that row's day minus one (`LIMIT 1` picks the first
row). -/
def get_current_day (niche : String) (today : Nat) (db : DB) :
    Except PyError Int :=
  if pyStrip niche = "" then .error (.valueError "Niche cannot be empty")
  else if db.fail then .error .sqliteError
  else
    match todayRows (pyStrip niche) today db.entries with
    | [] => .ok (maxOr0 (histDays (pyStrip niche) today db.entries))
    | e :: _ => .ok (e.continuation_day - 1)

/-- `check_for_duplication` (`db_manager.py:242-285`): `COUNT(*) > 0` over
`WHERE LOWER(title) = LOWER(?)`, the parameter being the stripped title. -/
def check_for_duplication (title : String) (db : DB) : Except PyError Bool :=
  if pyStrip title = "" then .error (.valueError "Title cannot be empty")
  else if db.fail then .error .sqliteError
  else .ok (db.entries.any fun e => sqliteLower e.title == sqliteLower (pyStrip title))

/-- The empty, healthy store (fresh database after `setup_database`). -/
def emptyDB : DB := { entries := [], nextId := 0, fail := false }

/-- One same-day regeneration cycle, as the generation orchestrator performs
it (spec §6): read `get_current_day` and log the item with that value plus
one.  A raised exception or a returned `false` leaves the store unchanged. -/
def regen (title : String) (now : Nat) (C : String) (today : Nat) (db : DB) :
    DB :=
  match get_current_day C today db with
  | .error _ => db
  | .ok v =>
    match log_idea title C (v + 1) now today db with
    | .ok (_, db2) => db2
    | .error _ => db

/-- A batch of regeneration cycles (title and timestamp per item), all on the
same calendar day. -/
def regenAll (items : List (String × Nat)) (C : String) (today : Nat)
    (db : DB) : DB :=
  items.foldl (fun acc it => regen it.1 it.2 C today acc) db

/-- `get_current_day` as the specification words it (§4.1): find whether some
entry of the category is dated today and if so report its day minus one,
otherwise the maximum day over the category's entries not dated today,
defaulting to 0 when there are none.  Category identifiers are normalized
(stripped) before comparison, as everywhere in the interface. -/
def get_current_day_spec (category : String) (today : Nat) (db : DB) : Int :=
  match db.entries.find? (fun e =>
      e.niche == pyStrip category && e.generation_date == today) with
  | some e => e.continuation_day - 1
  | none =>
    (((db.entries.filter fun e =>
        e.niche == pyStrip category && e.generation_date != today).map
      (·.continuation_day)).max?).getD 0

/-- Cross-day strict monotonicity of `sequence_day` per category (spec §3):
a row dated strictly later than another row of the same category carries a
strictly larger day. -/
def MonotoneDays (entries : List Entry) : Prop :=
  ∀ e1 ∈ entries, ∀ e2 ∈ entries, e1.niche = e2.niche →
    e1.generation_date < e2.generation_date →
    e1.continuation_day < e2.continuation_day

section Lemmas

/-- Filtering with a predicate after keeping only its complement is empty. -/
theorem filter_not_filter {α : Type} (p : α → Bool) (l : List α) :
    (l.filter fun x => !(p x)).filter p = [] := by
  induction l with
  | nil => rfl
  | cons a as ih =>
    rw [List.filter_cons]
    by_cases h : p a
    · rw [if_neg (by simp [h])]
      exact ih
    · rw [if_pos (by simp [h]), List.filter_cons, if_neg (by simp [h])]
      exact ih

/-- `find?` returns the head of the filtered list. -/
theorem find?_eq_head?_filter {α : Type} (p : α → Bool) (l : List α) :
    l.find? p = (l.filter p).head? := by
  induction l with
  | nil => rfl
  | cons a as ih =>
    rw [List.find?_cons, List.filter_cons]
    by_cases h : p a
    · rw [if_pos h, h]
      rfl
    · rw [Bool.not_eq_true] at h
      rw [if_neg (by simp [h]), h]
      exact ih

/-- `maxOr0` is `max?` with default `0`. -/
theorem maxOr0_eq_max?_getD (l : List Int) : maxOr0 l = (List.max? l).getD 0 := by
  cases l <;> rfl

/-- Appending one nonnegative element takes the `max` with it. -/
theorem maxOr0_append_single (l : List Int) (x : Int) (hx : 0 ≤ x) :
    maxOr0 (l ++ [x]) = max (maxOr0 l) x := by
  cases l with
  | nil => simpa [maxOr0] using (max_eq_right hx).symm
  | cons a as => simp [maxOr0, List.foldl_append]

/-- A successful `get_current_day` presupposes a nonempty (stripped) niche
and an available storage layer. -/
theorem get_ok_facts (C : String) (today : Nat) (db : DB) (v : Int)
    (h : get_current_day C today db = .ok v) :
    pyStrip C ≠ "" ∧ db.fail = false := by
  by_cases h1 : pyStrip C = ""
  · rw [get_current_day, if_pos h1] at h
    exact absurd h (by simp)
  · by_cases h2 : db.fail = true
    · rw [get_current_day, if_neg h1, if_pos h2] at h
      exact absurd h (by simp)
    · exact ⟨h1, by simpa using h2⟩

/-- Evaluation of `get_current_day` on an available store. -/
theorem get_current_day_eq (C : String) (today : Nat) (db : DB)
    (hn : pyStrip C ≠ "") (hf : db.fail = false) :
    get_current_day C today db =
      match todayRows (pyStrip C) today db.entries with
      | [] => .ok (maxOr0 (histDays (pyStrip C) today db.entries))
      | e :: _ => .ok (e.continuation_day - 1) := by
  rw [get_current_day, if_neg hn, hf, if_neg (by simp)]

/-- A niche accepted by the schema `CHECK` is nonempty once stripped. -/
theorem mem_allowedNiches_ne_empty {s : String} (h : s ∈ allowedNiches) :
    s ≠ "" := by
  intro h0
  rw [h0] at h
  exact absurd h (by decide)

/-- Evaluation of a fully successful `log_idea`. -/
theorem log_idea_eval (t n : String) (d : Int) (now today : Nat) (db : DB)
    (ht : pyStrip t ≠ "") (hn : pyStrip n ∈ allowedNiches) (hd : 1 ≤ d)
    (hf : db.fail = false) :
    log_idea t n d now today db = .ok (true,
      ⟨(db.entries.filter fun e =>
          !(e.niche == pyStrip n && e.generation_date == today)) ++
          [⟨db.nextId, pyStrip t, pyStrip n, d, now, today⟩],
        db.nextId + 1, false⟩) := by
  rw [log_idea, if_neg ht, if_neg (mem_allowedNiches_ne_empty hn),
    if_neg (by omega : ¬ d < 1), hf, if_neg (by simp), if_pos hn]

/-- Inversion of a non-raising `log_idea`: it either changed nothing and
returned `false`, or performed the delete-and-insert and returned `true`. -/
theorem log_idea_ok_inv (t n : String) (d : Int) (now today : Nat) (db : DB)
    (b : Bool) (db2 : DB) (h : log_idea t n d now today db = .ok (b, db2)) :
    (b = false ∧ db2 = db) ∨
    (b = true ∧ db.fail = false ∧ pyStrip n ∈ allowedNiches ∧ 1 ≤ d ∧
      db2 = ⟨(db.entries.filter fun e =>
          !(e.niche == pyStrip n && e.generation_date == today)) ++
          [⟨db.nextId, pyStrip t, pyStrip n, d, now, today⟩],
        db.nextId + 1, false⟩) := by
  rw [log_idea] at h
  split_ifs at h with h1 h2 h3 h4 h5
  · injection h with h'
    injection h' with hb hdb
    exact Or.inl ⟨hb.symm, hdb.symm⟩
  · injection h with h'
    injection h' with hb hdb
    exact Or.inr ⟨hb.symm, by simpa using h4, h5, by omega, hdb.symm⟩
  · injection h with h'
    injection h' with hb hdb
    exact Or.inl ⟨hb.symm, hdb.symm⟩

end Lemmas

section Claims

/-- C5: `log_idea` raises `ValueError` (the spec's `InvalidArgument`) when
the title is empty, when the category is empty, or when the sequence day is
below 1, and `get_current_day` and `check_for_duplication` raise it when
their string argument is empty.  The validation precedes any storage access:
the same error comes back for every store `db` — available or not — and no
modified store is produced.  Emptiness is the code's `not s or not
s.strip()`, i.e. empty after stripping. -/
theorem c5_validation_errors (t c : String) (d : Int) (now today : Nat) :
    ((pyStrip t = "" ∨ pyStrip c = "" ∨ d < 1) →
      ∃ m, ∀ db : DB, log_idea t c d now today db =
        Except.error (.valueError m)) ∧
    (pyStrip c = "" →
      ∃ m, ∀ db : DB, get_current_day c today db =
        Except.error (.valueError m)) ∧
    (pyStrip t = "" →
      ∃ m, ∀ db : DB, check_for_duplication t db =
        Except.error (.valueError m)) := by
  refine ⟨?_, ?_, ?_⟩
  · intro h
    by_cases h1 : pyStrip t = ""
    · exact ⟨"Title cannot be empty", fun db => by rw [log_idea, if_pos h1]⟩
    · by_cases h2 : pyStrip c = ""
      · exact ⟨"Niche cannot be empty", fun db => by
          rw [log_idea, if_neg h1, if_pos h2]⟩
      · have h3 : d < 1 := by tauto
        exact ⟨"Continuation day must be a positive integer", fun db => by
          rw [log_idea, if_neg h1, if_neg h2, if_pos h3]⟩
  · intro h
    exact ⟨"Niche cannot be empty", fun db => by
      rw [get_current_day, if_pos h]⟩
  · intro h
    exact ⟨"Title cannot be empty", fun db => by
      rw [check_for_duplication, if_pos h]⟩

/-- Witness for C5 at concrete inputs: the empty title, the zero day, the
blank niche and the empty duplication query each raise, whatever the store. -/
theorem c5_witness :
    (∃ m, ∀ db : DB, log_idea "" "X" 1 0 0 db =
      Except.error (.valueError m)) ∧
    (∃ m, ∀ db : DB, log_idea "T" "X" 0 0 0 db =
      Except.error (.valueError m)) ∧
    (∃ m, ∀ db : DB, get_current_day " " 0 db =
      Except.error (.valueError m)) ∧
    (∃ m, ∀ db : DB, check_for_duplication "" db =
      Except.error (.valueError m)) :=
  ⟨(c5_validation_errors "" "X" 1 0 0).1 (Or.inl (by decide)),
   (c5_validation_errors "T" "X" 0 0 0).1 (Or.inr (Or.inr (by decide))),
   (c5_validation_errors "T" " " 1 0 0).2.1 (by decide),
   (c5_validation_errors "" "X" 1 0 0).2.2 (by decide)⟩

/-- C6: with valid arguments `log_idea` never raises — it always returns a
boolean, and on an unavailable storage layer that boolean is `false` with
the store untouched — while `get_current_day` and `check_for_duplication`
propagate the storage failure to the caller instead of substituting a
default value. -/
theorem c6_storage_failure_policy (t c : String) (d : Int) (now today : Nat)
    (db : DB) (ht : pyStrip t ≠ "") (hc : pyStrip c ≠ "") (hd : 1 ≤ d) :
    (∃ b db2, log_idea t c d now today db = Except.ok (b, db2)) ∧
    (db.fail = true → log_idea t c d now today db = Except.ok (false, db)) ∧
    (db.fail = true → get_current_day c today db =
      Except.error .sqliteError) ∧
    (db.fail = true → check_for_duplication t db =
      Except.error .sqliteError) := by
  have hd' : ¬ d < 1 := by omega
  refine ⟨?_, ?_, ?_, ?_⟩
  · rw [log_idea, if_neg ht, if_neg hc, if_neg hd']
    by_cases hf : db.fail = true
    · rw [if_pos hf]
      exact ⟨false, db, rfl⟩
    · rw [if_neg hf]
      by_cases hm : pyStrip c ∈ allowedNiches
      · rw [if_pos hm]
        exact ⟨_, _, rfl⟩
      · rw [if_neg hm]
        exact ⟨false, db, rfl⟩
  · intro hf
    rw [log_idea, if_neg ht, if_neg hc, if_neg hd', if_pos hf]
  · intro hf
    rw [get_current_day, if_neg hc, if_pos hf]
  · intro hf
    rw [check_for_duplication, if_neg ht, if_pos hf]

/-- Witness for C6 on a concrete unavailable store. -/
theorem c6_witness :
    (∃ b db2, log_idea "T" "MMO" 1 0 0 (⟨[], 0, true⟩ : DB) =
      Except.ok (b, db2)) ∧
    ((⟨[], 0, true⟩ : DB).fail = true →
      log_idea "T" "MMO" 1 0 0 (⟨[], 0, true⟩ : DB) =
        Except.ok (false, (⟨[], 0, true⟩ : DB))) ∧
    ((⟨[], 0, true⟩ : DB).fail = true →
      get_current_day "MMO" 0 (⟨[], 0, true⟩ : DB) =
        Except.error .sqliteError) ∧
    ((⟨[], 0, true⟩ : DB).fail = true →
      check_for_duplication "T" (⟨[], 0, true⟩ : DB) =
        Except.error .sqliteError) :=
  c6_storage_failure_policy "T" "MMO" 1 0 0 ⟨[], 0, true⟩
    (by decide) (by decide) (by decide)

/-- C7 is refuted on the code: "Bogus" is a non-empty category outside the
configured closed set, yet `get_current_day` does not fail with
`InvalidArgument` — the code validates only emptiness
(`db_manager.py:191-192`) and succeeds, returning 0 on the empty store. -/
theorem c7_counterexample :
    pyStrip "Bogus" ≠ "" ∧ pyStrip "Bogus" ∉ allowedNiches ∧
    get_current_day "Bogus" 0 emptyDB = Except.ok 0 :=
  ⟨by decide, by decide, rfl⟩

/-- C7 amended: `get_current_day` fails with `InvalidArgument` only when the
category is empty; a non-empty category, recognized or not, is accepted —
the call returns a value, and returns 0 when the store holds no row of that
category. -/
theorem c7_amended_no_membership_check (C : String) (today : Nat) (db : DB)
    (hC : pyStrip C ≠ "") (hf : db.fail = false) :
    (∃ v, get_current_day C today db = Except.ok v) ∧
    ((∀ e ∈ db.entries, e.niche ≠ pyStrip C) →
      get_current_day C today db = Except.ok 0) := by
  constructor
  · rw [get_current_day_eq C today db hC hf]
    cases todayRows (pyStrip C) today db.entries
    · exact ⟨_, rfl⟩
    · exact ⟨_, rfl⟩
  · intro hnone
    rw [get_current_day_eq C today db hC hf]
    have h1 : todayRows (pyStrip C) today db.entries = [] := by
      rw [todayRows, List.filter_eq_nil_iff]
      intro e he
      simp [hnone e he]
    have h2 : histDays (pyStrip C) today db.entries = [] := by
      rw [histDays, List.filter_eq_nil_iff.mpr (fun e he => by simp [hnone e he])]
      rfl
    rw [h1, h2]
    rfl

/-- Witness for C7's amended statement: the unrecognized category "Bogus" on
a store holding only an "MMO" row. -/
theorem c7_witness :
    (∃ v, get_current_day "Bogus" 5
      (⟨[⟨0, "A", "MMO", 3, 0, 0⟩], 1, false⟩ : DB) = Except.ok v) ∧
    ((∀ e ∈ (⟨[⟨0, "A", "MMO", 3, 0, 0⟩], 1, false⟩ : DB).entries,
        e.niche ≠ pyStrip "Bogus") →
      get_current_day "Bogus" 5
        (⟨[⟨0, "A", "MMO", 3, 0, 0⟩], 1, false⟩ : DB) = Except.ok 0) :=
  c7_amended_no_membership_check "Bogus" 5 ⟨[⟨0, "A", "MMO", 3, 0, 0⟩], 1, false⟩
    (by decide) (by decide)

/-- C8: for a non-empty title `t`, `check_for_duplication t` reports `true`
exactly when some stored entry — of any category and any date — has a title
equal to `t` under the case-insensitive comparison the code performs: equal
`LOWER` images, the query side being the stripped title. -/
theorem c8_duplicate_check_global (t : String) (db : DB)
    (ht : pyStrip t ≠ "") (hf : db.fail = false) :
    (check_for_duplication t db = Except.ok true ↔
      ∃ e ∈ db.entries, sqliteLower e.title = sqliteLower (pyStrip t)) := by
  rw [check_for_duplication, if_neg ht, hf, if_neg (by simp)]
  constructor
  · intro h
    injection h with h'
    obtain ⟨e, he, hme⟩ := List.any_eq_true.mp h'
    exact ⟨e, he, by simpa using hme⟩
  · intro h
    obtain ⟨e, he, hme⟩ := h
    have hany : db.entries.any
        (fun e => sqliteLower e.title == sqliteLower (pyStrip t)) = true :=
      List.any_eq_true.mpr ⟨e, he, by simpa using hme⟩
    rw [hany]

/-- Witness for C8: "hello world" is detected against a stored
"Hello World" of another category and date. -/
theorem c8_witness :
    check_for_duplication "hello world"
        (⟨[⟨0, "Hello World", "MMO", 1, 0, 0⟩], 1, false⟩ : DB) =
      Except.ok true ↔
    ∃ e ∈ (⟨[⟨0, "Hello World", "MMO", 1, 0, 0⟩], 1, false⟩ : DB).entries,
      sqliteLower e.title = sqliteLower (pyStrip "hello world") :=
  c8_duplicate_check_global "hello world"
    ⟨[⟨0, "Hello World", "MMO", 1, 0, 0⟩], 1, false⟩ (by decide) (by decide)

/-- C10: with a valid title and day but a (stripped) category outside the
schema's closed set, `log_idea` does not raise and does not insert: the
`CHECK` constraint rejects the `INSERT`, the transaction is rolled back and
the `sqlite3.IntegrityError` is converted to a returned `false`, leaving the
store exactly as it was. -/
theorem c10_check_constraint_rejects (t C : String) (d : Int)
    (now today : Nat) (db : DB) (ht : pyStrip t ≠ "") (hc : pyStrip C ≠ "")
    (hm : pyStrip C ∉ allowedNiches) (hd : 1 ≤ d) :
    log_idea t C d now today db = Except.ok (false, db) := by
  rw [log_idea, if_neg ht, if_neg hc, if_neg (by omega : ¬ d < 1)]
  by_cases hf : db.fail = true
  · rw [if_pos hf]
  · rw [if_neg hf, if_neg hm]

/-- Witness for C10: the category "Gardening" is rejected by the schema and
the empty store is unchanged. -/
theorem c10_witness :
    log_idea "T" "Gardening" 1 0 0 emptyDB = Except.ok (false, emptyDB) :=
  c10_check_constraint_rejects "T" "Gardening" 1 0 0 emptyDB
    (by decide) (by decide) (by decide) (by decide)

/-- C2: for a non-empty category, `get_current_day` returns exactly what the
specification's algorithm computes — the maximum `sequence_day` over the
category's entries not dated today (0 when none), overridden by "the today
entry's day minus one" when an entry of the category is dated today — and
in particular returns 0 on an empty store. -/
theorem c2_get_current_day_refines_spec (C : String) (today : Nat) (db : DB)
    (hC : pyStrip C ≠ "") (hf : db.fail = false) :
    get_current_day C today db =
      Except.ok (get_current_day_spec C today db) ∧
    (db.entries = [] → get_current_day C today db = Except.ok 0) := by
  constructor
  · rw [get_current_day_eq C today db hC hf, get_current_day_spec,
      find?_eq_head?_filter]
    simp only [todayRows, histDays]
    cases db.entries.filter
        (fun e => e.niche == pyStrip C && e.generation_date == today) with
    | nil => exact congrArg _ (maxOr0_eq_max?_getD _)
    | cons e es => rfl
  · intro h
    rw [get_current_day_eq C today db hC hf, h]
    rfl

/-- Witness for C2 on a store with a today row (day 4 dated 7) and a
historical row. -/
theorem c2_witness :
    get_current_day "MMO" 7
        (⟨[⟨0, "A", "MMO", 2, 0, 3⟩, ⟨1, "B", "MMO", 4, 0, 7⟩], 2, false⟩ : DB) =
      Except.ok (get_current_day_spec "MMO" 7
        (⟨[⟨0, "A", "MMO", 2, 0, 3⟩, ⟨1, "B", "MMO", 4, 0, 7⟩], 2, false⟩ : DB)) ∧
    ((⟨[⟨0, "A", "MMO", 2, 0, 3⟩, ⟨1, "B", "MMO", 4, 0, 7⟩], 2, false⟩ : DB).entries = [] →
      get_current_day "MMO" 7
        (⟨[⟨0, "A", "MMO", 2, 0, 3⟩, ⟨1, "B", "MMO", 4, 0, 7⟩], 2, false⟩ : DB) =
        Except.ok 0) :=
  c2_get_current_day_refines_spec "MMO" 7
    ⟨[⟨0, "A", "MMO", 2, 0, 3⟩, ⟨1, "B", "MMO", 4, 0, 7⟩], 2, false⟩
    (by decide) (by decide)

/-- C3: after two successful same-day `log_idea` calls for one category,
exactly one entry of that category is dated today, and it carries the second
call's (normalized) title: all same-day rows of the category are deleted
before the single insert. -/
theorem c3_same_day_overwrite (t1 t2 C : String) (d1 d2 : Int)
    (n1 n2 today : Nat) (db db1 db2 : DB)
    (_h1 : log_idea t1 C d1 n1 today db = Except.ok (true, db1))
    (h2 : log_idea t2 C d2 n2 today db1 = Except.ok (true, db2)) :
    ∃ e, todayRows (pyStrip C) today db2.entries = [e] ∧
      e.title = pyStrip t2 := by
  rcases log_idea_ok_inv _ _ _ _ _ _ _ _ h2 with ⟨hb, _⟩ | ⟨_, _, _, _, hdb2⟩
  · exact absurd hb (by decide)
  · subst hdb2
    refine ⟨⟨db1.nextId, pyStrip t2, pyStrip C, d2, n2, today⟩, ?_, rfl⟩
    rw [todayRows, List.filter_append, filter_not_filter, List.nil_append]
    simp

/-- Witness for C3: logging "A" then "B" for "MMO" on day 0 leaves exactly
one "MMO" row dated 0, titled "B". -/
theorem c3_witness :
    ∃ e, todayRows (pyStrip "MMO") 0
        (⟨[⟨1, "B", "MMO", 5, 0, 0⟩], 2, false⟩ : DB).entries = [e] ∧
      e.title = pyStrip "B" :=
  c3_same_day_overwrite "A" "B" "MMO" 5 5 0 0 0 emptyDB
    ⟨[⟨0, "A", "MMO", 5, 0, 0⟩], 1, false⟩
    ⟨[⟨1, "B", "MMO", 5, 0, 0⟩], 2, false⟩ rfl rfl

/-- C9: a successful `log_idea` removes only rows of the written category
dated today; every row of another category, and every row of the category
from another date, is still present unchanged afterwards. -/
theorem c9_frame_effect (t C : String) (d : Int) (now today : Nat)
    (db db2 : DB) (h : log_idea t C d now today db = Except.ok (true, db2)) :
    (∀ e ∈ db.entries, (e.niche ≠ pyStrip C ∨ e.generation_date ≠ today) →
      e ∈ db2.entries) ∧
    (∀ e ∈ db.entries, e ∉ db2.entries →
      e.niche = pyStrip C ∧ e.generation_date = today) := by
  rcases log_idea_ok_inv _ _ _ _ _ _ _ _ h with ⟨hb, _⟩ | ⟨_, _, _, _, hdb2⟩
  · exact absurd hb (by decide)
  · subst hdb2
    constructor
    · intro e he hcond
      apply List.mem_append_left
      rw [List.mem_filter]
      refine ⟨he, ?_⟩
      rcases hcond with hc | hc <;> simp [hc]
    · intro e he hnot
      by_contra hcon
      apply hnot
      apply List.mem_append_left
      rw [List.mem_filter]
      refine ⟨he, ?_⟩
      rw [not_and_or] at hcon
      rcases hcon with hc | hc <;> simp [hc]

/-- Witness for C9: writing "MMO" on day 5 over a store holding an
"AI/Tech" row dated 5, an "MMO" row dated 4 and an "MMO" row dated 5. -/
theorem c9_witness :
    (∀ e ∈ (⟨[⟨0, "X", "AI/Tech", 2, 0, 5⟩, ⟨1, "Y", "MMO", 3, 0, 4⟩,
        ⟨2, "Z", "MMO", 4, 0, 5⟩], 3, false⟩ : DB).entries,
      (e.niche ≠ pyStrip "MMO" ∨ e.generation_date ≠ 5) →
      e ∈ (⟨[⟨0, "X", "AI/Tech", 2, 0, 5⟩, ⟨1, "Y", "MMO", 3, 0, 4⟩,
        ⟨3, "W", "MMO", 5, 0, 5⟩], 4, false⟩ : DB).entries) ∧
    (∀ e ∈ (⟨[⟨0, "X", "AI/Tech", 2, 0, 5⟩, ⟨1, "Y", "MMO", 3, 0, 4⟩,
        ⟨2, "Z", "MMO", 4, 0, 5⟩], 3, false⟩ : DB).entries,
      e ∉ (⟨[⟨0, "X", "AI/Tech", 2, 0, 5⟩, ⟨1, "Y", "MMO", 3, 0, 4⟩,
        ⟨3, "W", "MMO", 5, 0, 5⟩], 4, false⟩ : DB).entries →
      e.niche = pyStrip "MMO" ∧ e.generation_date = 5) :=
  c9_frame_effect "W" "MMO" 5 0 5
    ⟨[⟨0, "X", "AI/Tech", 2, 0, 5⟩, ⟨1, "Y", "MMO", 3, 0, 4⟩,
      ⟨2, "Z", "MMO", 4, 0, 5⟩], 3, false⟩
    ⟨[⟨0, "X", "AI/Tech", 2, 0, 5⟩, ⟨1, "Y", "MMO", 3, 0, 4⟩,
      ⟨3, "W", "MMO", 5, 0, 5⟩], 4, false⟩ rfl

/-- C4 is refuted on the code: `log_idea` enforces no relation between the
written day and the category's prior-day maximum.  From a store satisfying
cross-day monotonicity (one "MMO" row with day 5 dated 0), a successful
`log_idea` of day 1 on the later date 1 yields a store violating it. -/
theorem c4_counterexample :
    MonotoneDays [⟨0, "Old", "MMO", 5, 0, 0⟩] ∧
    log_idea "T" "MMO" 1 0 1
        (⟨[⟨0, "Old", "MMO", 5, 0, 0⟩], 1, false⟩ : DB) =
      Except.ok (true,
        ⟨[⟨0, "Old", "MMO", 5, 0, 0⟩, ⟨1, "T", "MMO", 1, 0, 1⟩], 2, false⟩) ∧
    ¬ MonotoneDays [⟨0, "Old", "MMO", 5, 0, 0⟩, ⟨1, "T", "MMO", 1, 0, 1⟩] := by
  refine ⟨?_, rfl, ?_⟩
  · unfold MonotoneDays
    decide
  · unfold MonotoneDays
    decide

/-- C4 amended: a successful `log_idea` preserves cross-day strict
monotonicity of `sequence_day` per category provided the written day is
strictly above every prior-day day of that category (which the caller's
`get_current_day + 1` discipline guarantees) and no stored row is dated
after today; the read operations trivially preserve it since they do not
modify the store. -/
theorem c4_monotone_preserved (t C : String) (d : Int) (now today : Nat)
    (db db2 : DB) (h : log_idea t C d now today db = Except.ok (true, db2))
    (hmono : MonotoneDays db.entries)
    (hpast : ∀ e ∈ db.entries, e.generation_date ≤ today)
    (hlt : ∀ e ∈ db.entries, e.niche = pyStrip C →
      e.generation_date ≠ today → e.continuation_day < d) :
    MonotoneDays db2.entries := by
  rcases log_idea_ok_inv _ _ _ _ _ _ _ _ h with ⟨hb, _⟩ | ⟨_, _, _, _, hdb2⟩
  · exact absurd hb (by decide)
  · subst hdb2
    intro e1 he1 e2 he2 hniche hdate
    rcases List.mem_append.mp he1 with h1 | h1 <;>
      rcases List.mem_append.mp he2 with h2 | h2
    · exact hmono e1 (List.mem_filter.mp h1).1 e2 (List.mem_filter.mp h2).1
        hniche hdate
    · rw [List.mem_singleton] at h2
      subst h2
      exact hlt e1 (List.mem_filter.mp h1).1 hniche (Nat.ne_of_lt hdate)
    · rw [List.mem_singleton] at h1
      subst h1
      exact absurd hdate (Nat.not_lt.mpr (hpast e2 (List.mem_filter.mp h2).1))
    · rw [List.mem_singleton] at h1
      rw [List.mem_singleton] at h2
      subst h1
      subst h2
      exact absurd hdate (lt_irrefl _)

/-- Witness for C4's amended statement: a day-2 write on date 1 over a
monotone store whose "MMO" history peaks at day 1 on date 0. -/
theorem c4_witness :
    MonotoneDays (⟨[⟨0, "Old", "MMO", 1, 0, 0⟩, ⟨1, "N", "MMO", 2, 0, 1⟩],
      2, false⟩ : DB).entries :=
  c4_monotone_preserved "N" "MMO" 2 0 1
    ⟨[⟨0, "Old", "MMO", 1, 0, 0⟩], 1, false⟩
    ⟨[⟨0, "Old", "MMO", 1, 0, 0⟩, ⟨1, "N", "MMO", 2, 0, 1⟩], 2, false⟩
    rfl (by unfold MonotoneDays; decide) (by decide) (by decide)

end Claims

section RegenLemmas

/-- Inserting a row of the niche dated today after deleting all such rows
leaves exactly that row among today's rows. -/
theorem todayRows_insert (n : String) (today : Nat) (l : List Entry)
    (e : Entry) (he : (e.niche == n && e.generation_date == today) = true) :
    todayRows n today
      ((l.filter fun x => !(x.niche == n && x.generation_date == today)) ++
        [e]) = [e] := by
  rw [todayRows, List.filter_append, filter_not_filter, List.nil_append,
    List.filter_cons, if_pos he]
  rfl

/-- Same-day stability: one regeneration cycle leaves the value reported by
`get_current_day` unchanged. -/
theorem get_after_regen (s : String) (ns : Nat) (C : String) (today : Nat)
    (db : DB) (v : Int) (h : get_current_day C today db = Except.ok v) :
    get_current_day C today (regen s ns C today db) = Except.ok v := by
  obtain ⟨hC, hf⟩ := get_ok_facts C today db v h
  have hr : regen s ns C today db =
      match log_idea s C (v + 1) ns today db with
      | .ok (_, db2) => db2
      | .error _ => db := by
    unfold regen
    rw [h]
  rcases hb : log_idea s C (v + 1) ns today db with e | ⟨b, db2⟩
  · rw [hb] at hr
    have hr2 : regen s ns C today db = db := hr
    rw [hr2]
    exact h
  · rw [hb] at hr
    have hr2 : regen s ns C today db = db2 := hr
    rcases log_idea_ok_inv _ _ _ _ _ _ _ _ hb with ⟨_, hdb⟩ | ⟨_, _, _, _, hdb2⟩
    · rw [hr2, hdb]
      exact h
    · rw [hr2, hdb2]
      rw [get_current_day_eq _ _ _ hC rfl,
        todayRows_insert _ _ _ _ (by simp)]
      show Except.ok (v + 1 - 1) = Except.ok v
      congr 1
      omega

/-- Same-day stability for a whole batch of regeneration cycles. -/
theorem get_after_regenAll (items : List (String × Nat)) (C : String)
    (today : Nat) (db : DB) (v : Int)
    (h : get_current_day C today db = Except.ok v) :
    get_current_day C today (regenAll items C today db) = Except.ok v := by
  induction items generalizing db with
  | nil => exact h
  | cons it its ih => exact ih _ (get_after_regen it.1 it.2 C today db v h)

end RegenLemmas

section ClaimOne

/-- C1: within one calendar day (`t1`), any number of regeneration cycles
for a category — each one a `log_idea` whose day is the current
`get_current_day` plus one, as the generation orchestrator issues them —
leaves `get_current_day` at the value `d` it reported before the first
write; and from a state whose entries for the category all lie on dates
other than `t1` and `t2` (so the entry holding the reported maximum `d` was
written on a prior day), one `log_idea` of `d + 1` on `t1` keeps the report
at `d` for the rest of `t1` and makes the report on the later day `t2`
exactly `d + 1`: the sequence advances by exactly one step per day. -/
theorem c1_same_day_stable_cross_day_advance (C title : String)
    (items : List (String × Nat)) (now t1 t2 : Nat) (d : Int) (db : DB)
    (hC : pyStrip C ∈ allowedNiches) (ht : pyStrip title ≠ "")
    (hd : 0 ≤ d) (hne : t1 ≠ t2)
    (hdates : ∀ e ∈ db.entries, e.niche = pyStrip C →
      e.generation_date ≠ t1 ∧ e.generation_date ≠ t2)
    (hget : get_current_day C t1 db = Except.ok d) :
    get_current_day C t1 (regenAll items C t1 db) = Except.ok d ∧
    ∃ db2, log_idea title C (d + 1) now t1 db = Except.ok (true, db2) ∧
      get_current_day C t1 db2 = Except.ok d ∧
      get_current_day C t2 db2 = Except.ok (d + 1) := by
  have hC0 : pyStrip C ≠ "" := mem_allowedNiches_ne_empty hC
  obtain ⟨_, hf⟩ := get_ok_facts C t1 db d hget
  refine ⟨get_after_regenAll items C t1 db d hget, ?_⟩
  have hrows1 : (db.entries.filter fun e =>
      e.niche == pyStrip C && e.generation_date == t1) = [] := by
    rw [List.filter_eq_nil_iff]
    intro e he
    by_cases hn : e.niche = pyStrip C
    · simp [hn, (hdates e he hn).1]
    · simp [hn]
  have hrows2 : (db.entries.filter fun e =>
      e.niche == pyStrip C && e.generation_date == t2) = [] := by
    rw [List.filter_eq_nil_iff]
    intro e he
    by_cases hn : e.niche = pyStrip C
    · simp [hn, (hdates e he hn).2]
    · simp [hn]
  have hfilter : ∀ td : Nat,
      (∀ e ∈ db.entries, e.niche = pyStrip C → e.generation_date ≠ td) →
      (db.entries.filter fun e =>
        e.niche == pyStrip C && e.generation_date != td) =
      (db.entries.filter fun e => e.niche == pyStrip C) := by
    intro td htd
    apply List.filter_congr
    intro e he
    by_cases hn : e.niche = pyStrip C
    · simp [hn, htd e he hn]
    · simp [hn]
  have hmax : maxOr0 (histDays (pyStrip C) t1 db.entries) = d := by
    rw [get_current_day_eq C t1 db hC0 hf, todayRows, hrows1] at hget
    injection hget with hget'
  have holddays : maxOr0 ((db.entries.filter fun e =>
      e.niche == pyStrip C).map (·.continuation_day)) = d := by
    rw [histDays, hfilter t1 (fun e he hn => (hdates e he hn).1)] at hmax
    exact hmax
  -- the same-day delete removes nothing: no rows of the niche are dated t1
  have hkept : (db.entries.filter fun e =>
      !(e.niche == pyStrip C && e.generation_date == t1)) = db.entries := by
    rw [List.filter_eq_self]
    intro e he
    by_cases hn : e.niche = pyStrip C
    · simp [hn, (hdates e he hn).1]
    · simp [hn]
  have hlog := log_idea_eval title C (d + 1) now t1 db ht hC (by omega) hf
  rw [hkept] at hlog
  refine ⟨_, hlog, ?_, ?_⟩
  · rw [get_current_day_eq _ _ _ hC0 rfl, todayRows, List.filter_append,
      hrows1, List.nil_append, List.filter_cons, if_pos (by simp),
      List.filter_nil]
    show Except.ok (d + 1 - 1) = Except.ok d
    congr 1
    omega
  · rw [get_current_day_eq _ _ _ hC0 rfl, todayRows, List.filter_append,
      hrows2, List.filter_cons, if_neg (by simp [hne]), List.filter_nil,
      List.nil_append]
    show Except.ok (maxOr0 (histDays (pyStrip C) t2 (db.entries ++
      [⟨db.nextId, pyStrip title, pyStrip C, d + 1, now, t1⟩]))) =
      Except.ok (d + 1)
    rw [histDays, List.filter_append,
      hfilter t2 (fun e he hn => (hdates e he hn).2), List.filter_cons,
      if_pos (by simp [hne]), List.filter_nil, List.map_append,
      List.map_cons, List.map_nil,
      maxOr0_append_single _ _ (by omega : (0:Int) ≤ d + 1), holddays,
      max_eq_right (by omega : d ≤ d + 1)]

/-- Witness for C1: on the fresh store, two same-day regeneration cycles on
day 1 keep the report at 0, and a single day-1 write makes day 2 report
0 + 1. -/
theorem c1_witness :
    get_current_day "MMO" 1 (regenAll [("A", 0), ("B", 0)] "MMO" 1 emptyDB) =
      Except.ok 0 ∧
    ∃ db2, log_idea "C" "MMO" (0 + 1) 0 1 emptyDB = Except.ok (true, db2) ∧
      get_current_day "MMO" 1 db2 = Except.ok 0 ∧
      get_current_day "MMO" 2 db2 = Except.ok (0 + 1) :=
  c1_same_day_stable_cross_day_advance "MMO" "C" [("A", 0), ("B", 0)] 0 1 2 0
    emptyDB (by decide) (by decide) (by decide) (by decide)
    (by simp [emptyDB]) rfl

end ClaimOne

end ContentTracker
